import Mathlib

/-!
Verification of the Typesense-sidecar client layer of the junkdrawer
repository: the `ServerStatus` data model (`src/lib/typesense.ts`), the
command wrappers (`startTypesenseServer`, `stopTypesenseServer`,
`isTypesenseServerRunning`, `onTypesenseStatusUpdate`), the `useTypesense`
hook's subscription handler (`src/lib/useTypesense.ts`), and the
warning-gate effect of `NotesWorkspace.tsx` that debounces the
"Search is temporarily unavailable" banner.
-/

namespace Junkdrawer

/-- `ServerStatus` from `src/lib/typesense.ts`:
`{ is_healthy: boolean, message: string }`. -/
structure ServerStatus where
  is_healthy : Bool
  message : String
deriving DecidableEq, Repr

/-- The value of the React dependency `serverStatus?.is_healthy` used by the
warning effect in `NotesWorkspace.tsx`: `none` models `undefined`
(no status / `serverStatus === null`). -/
def healthDep : Option ServerStatus → Option Bool
  | none => none
  | some st => some st.is_healthy

/-- State of the warning gate in `NotesWorkspace`:
`lastStatus` is the `serverStatus` value from `useTypesense`,
`shown` is the `showTypesenseWarning` state, and `deadline` models
`warningTimeoutRef`: `some d` is a pending `setTimeout` that fires at
absolute time `d`. -/
structure GateState where
  lastStatus : Option ServerStatus
  shown : Bool
  deadline : Option Nat
deriving DecidableEq, Repr

/-- A due timer fires: at time `t`, a pending `setTimeout` whose deadline has
been reached runs `setShowTypesenseWarning(true)` and clears the ref
(`NotesWorkspace.tsx` lines 203-206). -/
def fireDue (g : GateState) (t : Nat) : GateState :=
  match g.deadline with
  | some d => if d ≤ t then { g with shown := true, deadline := none } else g
  | none => g

/-- One re-evaluation of the warning effect (`NotesWorkspace.tsx` lines
188-217) upon delivery of a new `serverStatus` value `s` at time `t`.
The effect's dependency is the primitive `serverStatus?.is_healthy`, so the
effect body re-runs only when that value changes; on a re-run React first
executes the cleanup (clearing any pending timer), then the body:
a non-`false` dependency hides the warning, an already-shown warning returns
early, and otherwise a fresh timer for `delay` ms is scheduled. -/
def gateApply (delay : Nat) (g : GateState) (t : Nat) (s : Option ServerStatus) :
    GateState :=
  if healthDep s = healthDep g.lastStatus then
    { g with lastStatus := s }
  else if healthDep s ≠ some false then
    { lastStatus := s, shown := false, deadline := none }
  else if g.shown then
    { lastStatus := s, shown := true, deadline := none }
  else
    { lastStatus := s, shown := false, deadline := some (t + delay) }

/-- Delivery of a status value at time `t`: any timer that became due by `t`
has fired before the delivery is processed, then the effect reacts to the
new value. -/
def gateEvent (delay : Nat) (g : GateState) (t : Nat) (s : Option ServerStatus) :
    GateState :=
  gateApply delay (fireDue g t) t s

/-- Initial gate state at mount: `serverStatus` is `null`,
`showTypesenseWarning` is `false`, no timer is pending. -/
def gateInit : GateState :=
  { lastStatus := none, shown := false, deadline := none }

/-- A timed trace of `serverStatus` values delivered to the component. -/
abbrev GateTrace := List (Nat × Option ServerStatus)

/-- Run the gate over a timed trace of status deliveries. -/
def runGate (delay : Nat) (events : GateTrace) : GateState :=
  events.foldl (fun g e => gateEvent delay g e.1 e.2) gateInit

/-- The `should_warn` signal at query time `t`: process every delivery with
timestamp `≤ t`, fire any timer due by `t`, and read
`showTypesenseWarning`. -/
def shouldWarn (delay : Nat) (events : GateTrace) (t : Nat) : Bool :=
  (fireDue (runGate delay (events.filter (fun e => e.1 ≤ t))) t).shown

/-- An unhealthy status as emitted by the supervisor. -/
def unhealthyStatus : ServerStatus :=
  { is_healthy := false, message := "Typesense server is unreachable" }

/-- A healthy status as emitted by the supervisor. -/
def healthyStatus : ServerStatus :=
  { is_healthy := true, message := "Typesense server is healthy" }


/-- A second unhealthy status with a different message, for exercising
repeated unhealthy deliveries. -/
def stillDownStatus : ServerStatus :=
  { is_healthy := false, message := "still down" }

/-- A gate state with an unhealthy status stored and a timer pending at
10000 ms. -/
def pendingGate : GateState :=
  { lastStatus := some unhealthyStatus, shown := false, deadline := some 10000 }

/-- The §8 hysteresis scenario: unhealthy at 0 ms, healthy at 5000 ms,
unhealthy again at 6000 ms. -/
def hysteresisTrace : GateTrace :=
  [(0, some unhealthyStatus), (5000, some healthyStatus),
   (6000, some unhealthyStatus)]


/-! History functions over traces, used to state the hysteresis invariant. -/

/-- The `serverStatus?.is_healthy` dependency value after a trace ran
(`none` for the empty trace, matching the mount value). -/
def lastDep (events : GateTrace) : Option Bool :=
  events.foldl (fun _ e => healthDep e.2) none

/-- Fold step for `streakStart`: an unhealthy delivery starts a streak at its
own time if none is running, otherwise keeps the running streak's start; any
other delivery ends the streak. -/
def streakStep (acc : Option Nat) (e : Nat × Option ServerStatus) : Option Nat :=
  if healthDep e.2 = some false then some (acc.getD e.1) else none

/-- The start time of the trailing run of unhealthy deliveries of a trace,
if the trace ends unhealthy. -/
def streakStart (events : GateTrace) : Option Nat :=
  events.foldl streakStep none

/-- The invariant that ties a gate state to the trace that produced it:
the stored status is the last delivered one; a pending timer exists only
while the warning is hidden and expires exactly `delay` after the start of
the current trailing unhealthy streak; a shown warning was triggered by a
delivery that arrived at least `delay` after the start of the current
trailing unhealthy streak. -/
def GateInv (delay : Nat) (events : GateTrace) (g : GateState) : Prop :=
  healthDep g.lastStatus = lastDep events ∧
  (∀ d, g.deadline = some d →
    g.shown = false ∧ ∃ t0, streakStart events = some t0 ∧ d = t0 + delay) ∧
  (g.shown = true →
    ∃ t0, streakStart events = some t0 ∧ ∃ e ∈ events, t0 + delay ≤ e.1)

/-- The invariant for the intermediate state reached after any timer due by
time `t` has fired but before the delivery at `t` is applied: the fired
warning's streak may have reached `delay` only at time `t` itself. -/
def MidInv (delay : Nat) (events : GateTrace) (t : Nat) (g : GateState) : Prop :=
  healthDep g.lastStatus = lastDep events ∧
  (∀ d, g.deadline = some d →
    g.shown = false ∧ ∃ t0, streakStart events = some t0 ∧ d = t0 + delay) ∧
  (g.shown = true →
    ∃ t0, streakStart events = some t0 ∧
      (t0 + delay ≤ t ∨ ∃ e ∈ events, t0 + delay ≤ e.1))

/-- Result of an awaited Tauri `invoke` call as observed by the wrappers in
`src/lib/typesense.ts`: the promise either resolves with a value or rejects
with an error rendered as a string. -/
inductive InvokeResult (α : Type) where
  | ok : α → InvokeResult α
  | err : String → InvokeResult α
deriving DecidableEq, Repr

/-- `startTypesenseServer` (`typesense.ts` lines 21-30): outside a Tauri
environment it resolves without touching the backend; otherwise it awaits
`invoke("start_typesense_server")` and wraps any rejection in a new error.
The second component records whether the backend command was invoked. -/
def startTypesenseServer (tauriEnv : Bool) (backend : InvokeResult Unit) :
    InvokeResult Unit × Bool :=
  if !tauriEnv then (.ok (), false)
  else
    match backend with
    | .ok _ => (.ok (), true)
    | .err e => (.err ("Failed to start Typesense server: " ++ e), true)

/-- `stopTypesenseServer` (`typesense.ts` lines 37-46), same shape as start. -/
def stopTypesenseServer (tauriEnv : Bool) (backend : InvokeResult Unit) :
    InvokeResult Unit × Bool :=
  if !tauriEnv then (.ok (), false)
  else
    match backend with
    | .ok _ => (.ok (), true)
    | .err e => (.err ("Failed to stop Typesense server: " ++ e), true)

/-- `isTypesenseServerRunning` (`typesense.ts` lines 52-62): `false` outside
Tauri; in Tauri it awaits `invoke("is_typesense_server_running")`, and the
catch branch logs and resolves `false` instead of rethrowing. -/
def isTypesenseServerRunning (tauriEnv : Bool) (backend : InvokeResult Bool) :
    InvokeResult Bool × Bool :=
  if !tauriEnv then (.ok false, false)
  else
    match backend with
    | .ok b => (.ok b, true)
    | .err _ => (.ok false, true)

/-- Modelled from the spec: the status-event registry behind Tauri's
`listen`/`unlisten` — the `StatusBroadcaster` of §4.4 together with the
`Subscription` handles of §3 — whose implementation is not under `src/`.
Each subscription is an id paired with the queue of statuses delivered to
its callback so far. -/
structure Broadcaster where
  nextId : Nat
  subs : List (Nat × List ServerStatus)
deriving DecidableEq, Repr

/-- Modelled from the spec: `subscribe() -> Subscription` registers a fresh
subscription with an empty delivery queue. -/
def Broadcaster.subscribe (b : Broadcaster) : Broadcaster × Nat :=
  ({ nextId := b.nextId + 1, subs := b.subs ++ [(b.nextId, [])] }, b.nextId)

/-- Modelled from the spec: `publish(status)` appends the status to every
live subscription's queue (per-subscriber FIFO). -/
def Broadcaster.publish (b : Broadcaster) (s : ServerStatus) : Broadcaster :=
  { b with subs := b.subs.map (fun p => (p.1, p.2 ++ [s])) }

/-- A sequence of publishes. -/
def Broadcaster.publishAll (b : Broadcaster) (ss : List ServerStatus) :
    Broadcaster :=
  ss.foldl Broadcaster.publish b

/-- Remove the entry of subscription `id` from the registry list. -/
def removeSub : List (Nat × List ServerStatus) → Nat →
    List (Nat × List ServerStatus)
  | [], _ => []
  | p :: rest, id =>
    if p.1 = id then removeSub rest id else p :: removeSub rest id

/-- Look up the delivery queue of subscription `id` in the registry list. -/
def lookupSub : List (Nat × List ServerStatus) → Nat →
    Option (List ServerStatus)
  | [], _ => none
  | p :: rest, id => if p.1 = id then some p.2 else lookupSub rest id

/-- Modelled from the spec: `unsubscribe(subscription)` removes exactly that
subscription; absent ids are a no-op, so disposal never fails. -/
def Broadcaster.unsubscribe (b : Broadcaster) (id : Nat) : Broadcaster :=
  { b with subs := removeSub b.subs id }

/-- The queue of statuses delivered to subscription `id`, `none` if it is
not registered. -/
def Broadcaster.delivered (b : Broadcaster) (id : Nat) :
    Option (List ServerStatus) :=
  lookupSub b.subs id

/-- `onTypesenseStatusUpdate` (`typesense.ts` lines 69-82): outside Tauri it
resolves to a no-op unsubscribe (`none`) without registering any listener;
in Tauri it awaits `listen("typesense-server-status", ...)` and returns a
disposer wrapping `unlisten`. -/
def onTypesenseStatusUpdate (tauriEnv : Bool) (b : Broadcaster) :
    Broadcaster × Option Nat :=
  if !tauriEnv then (b, none)
  else (b.subscribe.1, some b.subscribe.2)

/-- Invoking the returned unsubscribe function: the no-op handle leaves the
registry untouched, a real handle calls `unlisten`. -/
def runUnsubscribe (b : Broadcaster) (h : Option Nat) : Broadcaster :=
  match h with
  | none => b
  | some id => b.unsubscribe id

/-- The state of the `useTypesense` hook (`src/lib/useTypesense.ts`). -/
structure UseTypesenseState where
  isRunning : Bool
  isLoading : Bool
  error : Option String
  serverStatus : Option ServerStatus
deriving DecidableEq, Repr

/-- The hook's initial state (`useState` initialisers, lines 23-26). -/
def initialUseTypesenseState : UseTypesenseState :=
  { isRunning := false, isLoading := false, error := none, serverStatus := none }

/-- The subscription callback registered by `useTypesense` (lines 54-63):
every delivered status is consumed as a plain value — it sets
`serverStatus`, sets `isRunning` to `status.is_healthy`, and sets `error`
to `status.message` when unhealthy and to `null` when healthy. -/
def applyStatusUpdate (st : UseTypesenseState) (status : ServerStatus) :
    UseTypesenseState :=
  { st with
    serverStatus := some status
    isRunning := status.is_healthy
    error := if status.is_healthy then none else some status.message }

/-- `TYPESENSE_WARNING_DELAY_MS` (`NotesWorkspace.tsx` line 11). -/
def TYPESENSE_WARNING_DELAY_MS : Nat := 10000

/-- The `NotesWorkspaceProps` interface: the optional
`typesenseWarningDelayMs` prop. -/
structure NotesWorkspaceProps where
  typesenseWarningDelayMs : Option Nat
deriving DecidableEq, Repr

/-- Default-parameter resolution in the component signature:
`typesenseWarningDelayMs = TYPESENSE_WARNING_DELAY_MS` when omitted. -/
def resolveWarningDelay (p : NotesWorkspaceProps) : Nat :=
  p.typesenseWarningDelayMs.getD TYPESENSE_WARNING_DELAY_MS

/-- A registry with two live subscriptions, ids 0 and 1. -/
def twoSubBroadcaster : Broadcaster :=
  { nextId := 2, subs := [(0, []), (1, [])] }

/-! Sanity checks on concrete traces. -/

example : shouldWarn 10000 [(0, some unhealthyStatus)] 9999 = false := by decide
example : shouldWarn 10000 [(0, some unhealthyStatus)] 10000 = true := by decide
example : shouldWarn 10000 hysteresisTrace 6000 = false := by decide
example : shouldWarn 10000 hysteresisTrace 15999 = false := by decide
example : shouldWarn 10000 hysteresisTrace 16000 = true := by decide

theorem lastDep_append (events : GateTrace) (e : Nat × Option ServerStatus) :
    lastDep (events ++ [e]) = healthDep e.2 := by
  simp [lastDep, List.foldl_append]

theorem streakStart_append (events : GateTrace) (e : Nat × Option ServerStatus) :
    streakStart (events ++ [e]) = streakStep (streakStart events) e := by
  simp [streakStart, List.foldl_append]

theorem runGate_append (delay : Nat) (events : GateTrace)
    (e : Nat × Option ServerStatus) :
    runGate delay (events ++ [e]) = gateEvent delay (runGate delay events) e.1 e.2 := by
  simp [runGate, List.foldl_append]

/-- A trailing unhealthy streak exists only when the trace ends unhealthy. -/
theorem lastDep_of_streakStart (events : GateTrace) (t0 : Nat)
    (h : streakStart events = some t0) : lastDep events = some false := by
  induction events using List.reverseRecOn with
  | nil => simp [streakStart] at h
  | append_singleton es e _ =>
    rw [streakStart_append] at h
    rw [lastDep_append]
    unfold streakStep at h
    by_cases hd : healthDep e.2 = some false
    · exact hd
    · simp [hd] at h


theorem gateInv_init (delay : Nat) : GateInv delay [] gateInit := by
  refine ⟨rfl, ?_, ?_⟩
  · intro d hd; simp [gateInit] at hd
  · intro hs; simp [gateInit] at hs

theorem fireDue_eq_of_none (g : GateState) (t : Nat) (h : g.deadline = none) :
    fireDue g t = g := by
  unfold fireDue; rw [h]

theorem fireDue_eq_of_lt (g : GateState) (t d : Nat) (h : g.deadline = some d)
    (h2 : ¬d ≤ t) : fireDue g t = g := by
  unfold fireDue; rw [h]; simp [h2]

theorem fireDue_eq_of_le (g : GateState) (t d : Nat) (h : g.deadline = some d)
    (h2 : d ≤ t) : fireDue g t = { g with shown := true, deadline := none } := by
  unfold fireDue; rw [h]; simp [h2]

theorem gateApply_unchanged (delay : Nat) (g : GateState) (t : Nat)
    (s : Option ServerStatus) (h : healthDep s = healthDep g.lastStatus) :
    gateApply delay g t s = { g with lastStatus := s } := by
  unfold gateApply; simp [h]

theorem gateApply_reset (delay : Nat) (g : GateState) (t : Nat)
    (s : Option ServerStatus) (h1 : healthDep s ≠ healthDep g.lastStatus)
    (h2 : healthDep s ≠ some false) :
    gateApply delay g t s = { lastStatus := s, shown := false, deadline := none } := by
  unfold gateApply; simp [h1, h2]

theorem gateApply_early (delay : Nat) (g : GateState) (t : Nat)
    (s : Option ServerStatus) (h1 : healthDep s ≠ healthDep g.lastStatus)
    (h2 : healthDep s = some false) (h3 : g.shown = true) :
    gateApply delay g t s = { lastStatus := s, shown := true, deadline := none } := by
  unfold gateApply
  rw [if_neg h1, if_neg (not_not_intro h2), if_pos h3]

theorem gateApply_arm (delay : Nat) (g : GateState) (t : Nat)
    (s : Option ServerStatus) (h1 : healthDep s ≠ healthDep g.lastStatus)
    (h2 : healthDep s = some false) (h3 : g.shown = false) :
    gateApply delay g t s =
      { lastStatus := s, shown := false, deadline := some (t + delay) } := by
  unfold gateApply
  rw [if_neg h1, if_neg (not_not_intro h2), if_neg (by simp [h3])]


theorem midInv_of_gateInv (delay : Nat) (events : GateTrace) (t : Nat)
    (g : GateState) (hinv : GateInv delay events g) :
    MidInv delay events t (fireDue g t) := by
  obtain ⟨hlast, hdl, hshw⟩ := hinv
  rcases hdlc : g.deadline with _ | d
  · rw [fireDue_eq_of_none g t hdlc]
    refine ⟨hlast, hdl, ?_⟩
    intro hs
    obtain ⟨t0, h1, e, he, h2⟩ := hshw hs
    exact ⟨t0, h1, Or.inr ⟨e, he, h2⟩⟩
  · by_cases hdt : d ≤ t
    · rw [fireDue_eq_of_le g t d hdlc hdt]
      obtain ⟨hsh, t0, hstreak, hd0⟩ := hdl d hdlc
      refine ⟨hlast, ?_, ?_⟩
      · intro d2 hd2
        simp at hd2
      · intro _
        exact ⟨t0, hstreak, Or.inl (by omega)⟩
    · rw [fireDue_eq_of_lt g t d hdlc hdt]
      refine ⟨hlast, hdl, ?_⟩
      intro hs
      obtain ⟨t0, h1, e, he, h2⟩ := hshw hs
      exact ⟨t0, h1, Or.inr ⟨e, he, h2⟩⟩

theorem gateInv_of_midInv (delay : Nat) (events : GateTrace) (t : Nat)
    (s : Option ServerStatus) (g : GateState) (hmid : MidInv delay events t g) :
    GateInv delay (events ++ [(t, s)]) (gateApply delay g t s) := by
  obtain ⟨hlast, hdl, hshw⟩ := hmid
  by_cases h1 : healthDep s = healthDep g.lastStatus
  · rw [gateApply_unchanged delay g t s h1]
    refine ⟨by rw [lastDep_append], ?_, ?_⟩
    · intro d hd
      simp only at hd
      obtain ⟨hsh, t0, hstreak, hd0⟩ := hdl d hd
      have hfalse : healthDep s = some false := by
        rw [h1, hlast]; exact lastDep_of_streakStart events t0 hstreak
      refine ⟨hsh, t0, ?_, hd0⟩
      rw [streakStart_append]
      simp [streakStep, hfalse, hstreak]
    · intro hs
      simp only at hs
      obtain ⟨t0, hstreak, hw⟩ := hshw hs
      have hfalse : healthDep s = some false := by
        rw [h1, hlast]; exact lastDep_of_streakStart events t0 hstreak
      refine ⟨t0, ?_, ?_⟩
      · rw [streakStart_append]
        simp [streakStep, hfalse, hstreak]
      · rcases hw with hw | ⟨e, he, hle⟩
        · exact ⟨(t, s), by simp, hw⟩
        · exact ⟨e, by simp [he], hle⟩
  · by_cases h2 : healthDep s = some false
    · have hnostreak : streakStart events = none := by
        cases hss : streakStart events with
        | none => rfl
        | some t0 =>
          have := lastDep_of_streakStart events t0 hss
          rw [← hlast] at this
          exact absurd (h2.trans this.symm) h1
      have h3 : g.shown = false := by
        by_contra hc
        obtain ⟨t0, hstreak, _⟩ := hshw (by simpa using hc)
        rw [hnostreak] at hstreak
        cases hstreak
      rw [gateApply_arm delay g t s h1 h2 h3]
      refine ⟨by rw [lastDep_append], ?_, ?_⟩
      · intro d hd
        simp only [Option.some_inj] at hd
        refine ⟨rfl, t, ?_, hd.symm⟩
        rw [streakStart_append]
        simp [streakStep, h2, hnostreak]
      · intro hs
        simp at hs
    · rw [gateApply_reset delay g t s h1 h2]
      refine ⟨by rw [lastDep_append], ?_, ?_⟩
      · intro d hd
        simp at hd
      · intro hs
        simp at hs

theorem gateInv_step (delay : Nat) (events : GateTrace) (g : GateState)
    (t : Nat) (s : Option ServerStatus) (hinv : GateInv delay events g) :
    GateInv delay (events ++ [(t, s)]) (gateEvent delay g t s) :=
  gateInv_of_midInv delay events t s (fireDue g t)
    (midInv_of_gateInv delay events t g hinv)

/-- Every reachable gate state satisfies the hysteresis invariant. -/
theorem gateInv_runGate (delay : Nat) (events : GateTrace) :
    GateInv delay events (runGate delay events) := by
  induction events using List.reverseRecOn with
  | nil => exact gateInv_init delay
  | append_singleton es e ih =>
    rw [runGate_append]
    exact gateInv_step delay es (runGate delay es) e.1 e.2 ih

/-- A trailing unhealthy streak starting at `t0` decomposes the trace: an
unhealthy delivery at `t0` followed only by unhealthy deliveries. -/
theorem streakStart_decomp (events : GateTrace) (t0 : Nat)
    (h : streakStart events = some t0) :
    ∃ pre s0 post, events = pre ++ (t0, s0) :: post ∧ healthDep s0 = some false ∧
      ∀ e ∈ post, healthDep e.2 = some false := by
  induction events using List.reverseRecOn with
  | nil => simp [streakStart] at h
  | append_singleton es e ih =>
    obtain ⟨te, se⟩ := e
    rw [streakStart_append] at h
    unfold streakStep at h
    by_cases hd : healthDep se = some false
    · rw [if_pos hd] at h
      cases hse : streakStart es with
      | none =>
        rw [hse] at h
        simp at h
        refine ⟨es, se, [], ?_, hd, by simp⟩
        rw [h]
      | some t1 =>
        rw [hse] at h
        simp at h
        obtain ⟨pre, s0, post, heq, hs0, hpost⟩ := ih (h ▸ hse)
        refine ⟨pre, s0, post ++ [(te, se)], by rw [heq]; simp, hs0, ?_⟩
        intro x hx
        rcases List.mem_append.1 hx with hx | hx
        · exact hpost x hx
        · simp at hx
          rw [hx]
          exact hd
    · rw [if_neg (by simpa using hd)] at h
      cases h

/-- If `should_warn` is true at time `t`, then the deliveries up to `t` end
in an unhealthy streak that started at least `delay` before `t`. -/
theorem warn_implies_streak (delay : Nat) (events : GateTrace) (t : Nat)
    (h : shouldWarn delay events t = true) :
    ∃ t0, t0 + delay ≤ t ∧
      streakStart (events.filter (fun e => e.1 ≤ t)) = some t0 := by
  unfold shouldWarn at h
  obtain ⟨hlast, hdl, hshw⟩ :=
    gateInv_runGate delay (events.filter (fun e => e.1 ≤ t))
  set g := runGate delay (events.filter (fun e => e.1 ≤ t)) with hg
  have hmem : ∀ e ∈ events.filter (fun x => x.1 ≤ t), e.1 ≤ t := by
    intro e he
    have := List.mem_filter.1 he
    simpa using this.2
  rcases hdc : g.deadline with _ | d
  · rw [fireDue_eq_of_none g t hdc] at h
    obtain ⟨t0, hstreak, e, he, hle⟩ := hshw h
    exact ⟨t0, le_trans hle (hmem e he), hstreak⟩
  · by_cases hdt : d ≤ t
    · obtain ⟨hsh, t0, hstreak, hd0⟩ := hdl d hdc
      exact ⟨t0, by omega, hstreak⟩
    · rw [fireDue_eq_of_lt g t d hdc hdt] at h
      obtain ⟨t0, hstreak, e, he, hle⟩ := hshw h
      exact ⟨t0, le_trans hle (hmem e he), hstreak⟩

theorem fireDue_lastStatus (g : GateState) (t : Nat) :
    (fireDue g t).lastStatus = g.lastStatus := by
  rcases hd : g.deadline with _ | d
  · rw [fireDue_eq_of_none g t hd]
  · by_cases h : d ≤ t
    · rw [fireDue_eq_of_le g t d hd h]
    · rw [fireDue_eq_of_lt g t d hd h]

/-- A healthy delivery always leaves the warning hidden, whatever the gate
did before: `serverStatus?.is_healthy !== false` clears the timer and calls
`setShowTypesenseWarning(false)`. -/
theorem healthy_resets (delay : Nat) (events : GateTrace) (t : Nat)
    (st : ServerStatus) (hst : st.is_healthy = true) :
    (gateEvent delay (runGate delay events) t (some st)).shown = false := by
  obtain ⟨hlast, hdl, hshw⟩ :=
    midInv_of_gateInv delay events t _ (gateInv_runGate delay events)
  unfold gateEvent
  set g := fireDue (runGate delay events) t with hg
  by_cases h1 : healthDep (some st) = healthDep g.lastStatus
  · rw [gateApply_unchanged delay g t (some st) h1]
    show g.shown = false
    cases hgs : g.shown
    · rfl
    · obtain ⟨t0, hstreak, _⟩ := hshw hgs
      have hfalse := lastDep_of_streakStart events t0 hstreak
      rw [← hlast] at hfalse
      rw [hfalse] at h1
      simp [healthDep, hst] at h1
  · rw [gateApply_reset delay g t (some st) h1 (by simp [healthDep, hst])]

/-- Closed-form evaluation of the gate on the §8 hysteresis scenario: the
warning is shown exactly from 16000 ms on (10 s after the second unhealthy
transition at 6000 ms). -/
theorem hysteresis_eval (t : Nat) :
    shouldWarn 10000 hysteresisTrace t = decide (16000 ≤ t) := by
  unfold shouldWarn
  rcases Nat.lt_or_ge t 5000 with h5 | h5
  · have h1 : ¬(5000 ≤ t) := by omega
    have h2 : ¬(6000 ≤ t) := by omega
    have hf : hysteresisTrace.filter (fun e => e.1 ≤ t) =
        [(0, some unhealthyStatus)] := by
      simp [hysteresisTrace, List.filter, h1, h2]
    rw [hf]
    have hrun : runGate 10000 [(0, some unhealthyStatus)] =
        { lastStatus := some unhealthyStatus, shown := false,
          deadline := some 10000 } := by decide
    rw [hrun]
    have h3 : ¬(10000 ≤ t) := by omega
    have h4 : ¬(16000 ≤ t) := by omega
    simp [fireDue, h3, h4]
  · rcases Nat.lt_or_ge t 6000 with h6 | h6
    · have h2 : ¬(6000 ≤ t) := by omega
      have hf : hysteresisTrace.filter (fun e => e.1 ≤ t) =
          [(0, some unhealthyStatus), (5000, some healthyStatus)] := by
        simp [hysteresisTrace, List.filter, h5, h2]
      rw [hf]
      have hrun : runGate 10000
          [(0, some unhealthyStatus), (5000, some healthyStatus)] =
          { lastStatus := some healthyStatus, shown := false,
            deadline := none } := by decide
      rw [hrun]
      have h4 : ¬(16000 ≤ t) := by omega
      simp [fireDue, h4]
    · have hf : hysteresisTrace.filter (fun e => e.1 ≤ t) = hysteresisTrace := by
        simp [hysteresisTrace, List.filter, h5, h6]
      rw [hf]
      have hrun : runGate 10000 hysteresisTrace =
          { lastStatus := some unhealthyStatus, shown := false,
            deadline := some 16000 } := by decide
      rw [hrun]
      by_cases h4 : 16000 ≤ t
      · simp [fireDue, h4]
      · simp [fireDue, h4]

/-- C1 (amended). The gate is a correct hysteresis filter: `should_warn` is
true at time `t` only if the deliveries up to `t` end in an unhealthy streak
— an `is_healthy=false` delivery at some `t0` with `t0 + delay ≤ t` followed
only by unhealthy deliveries — and any `is_healthy=true` delivery immediately
resets the warning to hidden. For the event sequence
`[unhealthy@0ms, healthy@5000ms, unhealthy@6000ms]` with `delay = 10000` ms,
`should_warn` is false at every time strictly before 16000 ms (the original
claim said "at all times", but the streak that starts at 6000 ms does reach
the 10 s delay at 16000 ms, at which point the code shows the warning). -/
theorem claim_C1_gate_hysteresis :
    (∀ (delay : Nat) (events : GateTrace) (t : Nat),
        shouldWarn delay events t = true →
        ∃ t0 pre s0 post,
          events.filter (fun e => e.1 ≤ t) = pre ++ (t0, s0) :: post ∧
          healthDep s0 = some false ∧ t0 + delay ≤ t ∧
          ∀ e ∈ post, healthDep e.2 = some false) ∧
    (∀ (delay : Nat) (events : GateTrace) (t : Nat) (st : ServerStatus),
        st.is_healthy = true →
        (gateEvent delay (runGate delay events) t (some st)).shown = false) ∧
    (∀ t : Nat, t < 16000 → shouldWarn 10000 hysteresisTrace t = false) := by
  refine ⟨?_, healthy_resets, ?_⟩
  · intro delay events t h
    obtain ⟨t0, hle, hstreak⟩ := warn_implies_streak delay events t h
    obtain ⟨pre, s0, post, heq, hs0, hpost⟩ := streakStart_decomp _ t0 hstreak
    exact ⟨t0, pre, s0, post, heq, hs0, hle, hpost⟩
  · intro t ht
    rw [hysteresis_eval t]
    simpa using (by omega : ¬(16000 ≤ t))

/-- C1 counterexample: on the scenario trace the claim's "should_warn remains
false at all times" fails — at t = 16000 ms the warning is shown, because the
unhealthy streak that began at 6000 ms has then lasted the full 10 s delay. -/
theorem claim_C1_counterexample :
    shouldWarn 10000 hysteresisTrace 16000 = true := by decide

theorem claim_C1_witness :
    (gateEvent 10000 (runGate 10000 [(0, some unhealthyStatus)]) 3000
        (some healthyStatus)).shown = false ∧
    shouldWarn 10000 hysteresisTrace 15999 = false :=
  ⟨claim_C1_gate_hysteresis.2.1 10000 [(0, some unhealthyStatus)] 3000
      healthyStatus (by decide),
   claim_C1_gate_hysteresis.2.2 15999 (by decide)⟩

/-- C2: for the single event `[unhealthy@0]` with `delay = 10000` ms and no
further deliveries, `should_warn` is true exactly from t = 10000 ms on, and
false at every time strictly before. -/
theorem claim_C2_gate_triggering (t : Nat) :
    shouldWarn 10000 [(0, some unhealthyStatus)] t = true ↔ 10000 ≤ t := by
  unfold shouldWarn
  have hf : ([(0, some unhealthyStatus)] : GateTrace).filter
      (fun e => e.1 ≤ t) = [(0, some unhealthyStatus)] := by
    simp
  rw [hf]
  have hrun : runGate 10000 [(0, some unhealthyStatus)] =
      { lastStatus := some unhealthyStatus, shown := false,
        deadline := some 10000 } := by decide
  rw [hrun]
  by_cases h : 10000 ≤ t
  · simp [fireDue, h]
  · simp [fireDue, h]

/-- C9: in every reachable gate state, a shown warning implies the most
recently delivered `serverStatus` is non-null and unhealthy; and whenever the
latest `serverStatus` is null (nothing received yet, or reset by a successful
`stopServer`), the warning is hidden and no warning timer is pending. -/
theorem claim_C9_warning_implies_unhealthy (delay : Nat) (events : GateTrace) :
    ((runGate delay events).shown = true →
      ∃ st, (runGate delay events).lastStatus = some st ∧
        st.is_healthy = false) ∧
    ((runGate delay events).lastStatus = none →
      (runGate delay events).shown = false ∧
        (runGate delay events).deadline = none) := by
  obtain ⟨hlast, hdl, hshw⟩ := gateInv_runGate delay events
  constructor
  · intro hs
    obtain ⟨t0, hstreak, _⟩ := hshw hs
    have hfalse := lastDep_of_streakStart events t0 hstreak
    rw [← hlast] at hfalse
    cases hls : (runGate delay events).lastStatus with
    | none => rw [hls] at hfalse; simp [healthDep] at hfalse
    | some st =>
      rw [hls] at hfalse
      simp [healthDep] at hfalse
      exact ⟨st, rfl, hfalse⟩
  · intro hnone
    have hdep : healthDep (runGate delay events).lastStatus = none := by
      rw [hnone]; rfl
    constructor
    · cases hsh : (runGate delay events).shown
      · rfl
      · obtain ⟨t0, hstreak, _⟩ := hshw hsh
        have hc := lastDep_of_streakStart events t0 hstreak
        rw [← hlast, hdep] at hc
        cases hc
    · cases hdc : (runGate delay events).deadline with
      | none => rfl
      | some d =>
        obtain ⟨_, t0, hstreak, _⟩ := hdl d hdc
        have hc := lastDep_of_streakStart events t0 hstreak
        rw [← hlast, hdep] at hc
        cases hc

theorem claim_C9_witness :
    (∃ st, (runGate 10000 [(0, some unhealthyStatus),
        (20000, some unhealthyStatus)]).lastStatus = some st ∧
        st.is_healthy = false) ∧
    ((runGate 10000 [(0, some unhealthyStatus), (5, none)]).shown = false ∧
      (runGate 10000 [(0, some unhealthyStatus), (5, none)]).deadline = none) :=
  ⟨(claim_C9_warning_implies_unhealthy 10000
      [(0, some unhealthyStatus), (20000, some unhealthyStatus)]).1 (by decide),
   (claim_C9_warning_implies_unhealthy 10000
      [(0, some unhealthyStatus), (5, none)]).2 (by decide)⟩

/-- C10: while the latest status is already unhealthy, delivering a further
unhealthy status (with any message) changes nothing but the stored status:
because the effect's dependency is the primitive `serverStatus?.is_healthy`,
the effect does not re-run, so the pending timer keeps its original deadline
(measured from the first transition into unhealthy) and a shown warning
stays exactly as it was; the only state change is the timer fire already due
at `t`, which the delivery neither causes nor cancels. -/
theorem claim_C10_unhealthy_idempotent (delay : Nat) (g : GateState) (t : Nat)
    (st stNew : ServerStatus) (hcur : g.lastStatus = some st)
    (hst : st.is_healthy = false) (hnew : stNew.is_healthy = false) :
    gateEvent delay g t (some stNew) =
      { fireDue g t with lastStatus := some stNew } := by
  unfold gateEvent
  apply gateApply_unchanged
  rw [fireDue_lastStatus, hcur]
  simp [healthDep, hst, hnew]

theorem claim_C10_witness :
    gateEvent 10000 pendingGate 500 (some stillDownStatus) =
      { fireDue pendingGate 500 with lastStatus := some stillDownStatus } :=
  claim_C10_unhealthy_idempotent 10000 pendingGate 500
    unhealthyStatus stillDownStatus rfl rfl rfl


theorem lookupSub_map (l : List (Nat × List ServerStatus)) (s : ServerStatus)
    (id : Nat) :
    lookupSub (l.map (fun q => (q.1, q.2 ++ [s]))) id =
      (lookupSub l id).map (fun q => q ++ [s]) := by
  induction l with
  | nil => rfl
  | cons hd tl ih =>
    by_cases h : hd.1 = id
    · simp [lookupSub, h]
    · simp [lookupSub, h, ih]

theorem lookupSub_removeSub_self (l : List (Nat × List ServerStatus))
    (id : Nat) : lookupSub (removeSub l id) id = none := by
  induction l with
  | nil => rfl
  | cons hd tl ih =>
    by_cases h : hd.1 = id
    · simp [removeSub, h, ih]
    · simp [removeSub, lookupSub, h, ih]

theorem lookupSub_removeSub_other (l : List (Nat × List ServerStatus))
    (id other : Nat) (hne : other ≠ id) :
    lookupSub (removeSub l id) other = lookupSub l other := by
  induction l with
  | nil => rfl
  | cons hd tl ih =>
    by_cases h : hd.1 = id
    · have hc : ¬hd.1 = other := by
        rw [h]; exact fun hc => hne hc.symm
      simp [removeSub, lookupSub, h, hc, ih, Ne.symm hne]
    · simp [removeSub, lookupSub, h, ih]

theorem removeSub_idem (l : List (Nat × List ServerStatus)) (id : Nat) :
    removeSub (removeSub l id) id = removeSub l id := by
  induction l with
  | nil => rfl
  | cons hd tl ih =>
    by_cases h : hd.1 = id
    · simp [removeSub, h, ih]
    · simp [removeSub, h, ih]

/-- Publishing appends the status to every registered subscription's queue
and delivers nothing to unregistered ids. -/
theorem delivered_publish (b : Broadcaster) (s : ServerStatus) (id : Nat) :
    (b.publish s).delivered id = (b.delivered id).map (fun q => q ++ [s]) := by
  unfold Broadcaster.publish Broadcaster.delivered
  exact lookupSub_map b.subs s id

theorem delivered_publishAll (b : Broadcaster) (ss : List ServerStatus)
    (id : Nat) :
    (b.publishAll ss).delivered id = (b.delivered id).map (fun q => q ++ ss) := by
  induction ss generalizing b with
  | nil =>
    unfold Broadcaster.publishAll
    cases h : b.delivered id <;> simp [h]
  | cons s rest ih =>
    have hstep : b.publishAll (s :: rest) = (b.publish s).publishAll rest := rfl
    rw [hstep, ih, delivered_publish]
    cases h : b.delivered id <;> simp [h]

theorem delivered_unsubscribe_self (b : Broadcaster) (id : Nat) :
    (b.unsubscribe id).delivered id = none := by
  unfold Broadcaster.unsubscribe Broadcaster.delivered
  exact lookupSub_removeSub_self b.subs id

theorem delivered_unsubscribe_other (b : Broadcaster) (id other : Nat)
    (hne : other ≠ id) :
    (b.unsubscribe id).delivered other = b.delivered other := by
  unfold Broadcaster.unsubscribe Broadcaster.delivered
  exact lookupSub_removeSub_other b.subs id other hne

/-- C4: errors cross the subscription boundary as data. The `useTypesense`
callback consumes every delivered `ServerStatus` as a plain value (it is a
total state update, never a thrown exception): an unhealthy status sets
`error` to exactly `status.message` and `isRunning` to false, a healthy
status sets `error` to null and `isRunning` to true, and the delivered
status is stored in `serverStatus`. -/
theorem claim_C4_errors_as_data (st : UseTypesenseState)
    (status : ServerStatus) :
    (status.is_healthy = false →
      (applyStatusUpdate st status).error = some status.message ∧
      (applyStatusUpdate st status).isRunning = false) ∧
    (status.is_healthy = true →
      (applyStatusUpdate st status).error = none ∧
      (applyStatusUpdate st status).isRunning = true) ∧
    (applyStatusUpdate st status).serverStatus = some status := by
  refine ⟨?_, ?_, rfl⟩
  · intro h; simp [applyStatusUpdate, h]
  · intro h; simp [applyStatusUpdate, h]

theorem claim_C4_witness :
    ((applyStatusUpdate initialUseTypesenseState unhealthyStatus).error =
        some unhealthyStatus.message ∧
      (applyStatusUpdate initialUseTypesenseState unhealthyStatus).isRunning =
        false) ∧
    ((applyStatusUpdate initialUseTypesenseState healthyStatus).error = none ∧
      (applyStatusUpdate initialUseTypesenseState healthyStatus).isRunning =
        true) :=
  ⟨(claim_C4_errors_as_data initialUseTypesenseState unhealthyStatus).1 rfl,
   (claim_C4_errors_as_data initialUseTypesenseState healthyStatus).2.1 rfl⟩

/-- C5: `isTypesenseServerRunning` always settles with `.ok` of a boolean —
it never rejects — and on any backend rejection it resolves to `false`
(the catch branch logs and returns `false`). -/
theorem claim_C5_is_running_never_rejects (tauriEnv : Bool)
    (backend : InvokeResult Bool) :
    (∃ b, (isTypesenseServerRunning tauriEnv backend).1 = .ok b) ∧
    (∀ msg, backend = .err msg →
      (isTypesenseServerRunning tauriEnv backend).1 = .ok false) := by
  constructor
  · cases tauriEnv
    · exact ⟨false, rfl⟩
    · cases backend with
      | ok b => exact ⟨b, rfl⟩
      | err e => exact ⟨false, rfl⟩
  · intro msg h
    subst h
    cases tauriEnv <;> rfl

theorem claim_C5_witness :
    (isTypesenseServerRunning true (.err "connection refused")).1 =
      .ok false :=
  (claim_C5_is_running_never_rejects true (.err "connection refused")).2
    "connection refused" rfl

/-- C6: `onTypesenseStatusUpdate` resolves to an unsubscribe handle; once a
subscription is disposed its callback receives nothing from any sequence of
later publishes, disposal is idempotent (so invoking the disposer never
fails, even on an already-removed subscription), and disposal leaves every
other subscription's deliveries exactly as they would have been. -/
theorem claim_C6_unsubscribe_isolated (b : Broadcaster) (id other : Nat)
    (ss : List ServerStatus) (hne : other ≠ id) :
    ((b.unsubscribe id).publishAll ss).delivered id = none ∧
    ((b.unsubscribe id).publishAll ss).delivered other =
      (b.publishAll ss).delivered other ∧
    (b.unsubscribe id).unsubscribe id = b.unsubscribe id ∧
    (∃ i, (onTypesenseStatusUpdate true b).2 = some i) := by
  refine ⟨?_, ?_, ?_, ⟨b.nextId, rfl⟩⟩
  · rw [delivered_publishAll, delivered_unsubscribe_self]
    rfl
  · rw [delivered_publishAll, delivered_unsubscribe_other b id other hne,
      delivered_publishAll]
  · unfold Broadcaster.unsubscribe
    simp [removeSub_idem]

theorem claim_C6_witness :
    ((twoSubBroadcaster.unsubscribe 0).publishAll [unhealthyStatus]).delivered
        0 = none ∧
    ((twoSubBroadcaster.unsubscribe 0).publishAll [unhealthyStatus]).delivered
        1 = (twoSubBroadcaster.publishAll [unhealthyStatus]).delivered 1 :=
  ⟨(claim_C6_unsubscribe_isolated twoSubBroadcaster 0 1 [unhealthyStatus]
      (by decide)).1,
   (claim_C6_unsubscribe_isolated twoSubBroadcaster 0 1 [unhealthyStatus]
      (by decide)).2.1⟩

/-- C7: the client warning delay is a prop of `NotesWorkspace` with default
`TYPESENSE_WARNING_DELAY_MS`; whenever the prop is omitted the gate runs
with 10000 ms. -/
theorem claim_C7_default_delay (p : NotesWorkspaceProps)
    (h : p.typesenseWarningDelayMs = none) :
    resolveWarningDelay p = 10000 ∧ TYPESENSE_WARNING_DELAY_MS = 10000 := by
  constructor
  · rw [resolveWarningDelay, h]
    rfl
  · rfl

theorem claim_C7_witness :
    resolveWarningDelay { typesenseWarningDelayMs := none } = 10000 :=
  (claim_C7_default_delay { typesenseWarningDelayMs := none } rfl).1

/-- C8: outside a Tauri environment every wrapper is a successful no-op:
start and stop resolve without invoking any backend command,
`isTypesenseServerRunning` resolves `false` without invoking the backend,
and `onTypesenseStatusUpdate` registers nothing (so the callback can never
be invoked) and returns the no-op unsubscribe handle, which leaves the
registry unchanged. -/
theorem claim_C8_non_tauri_noops (bu bs : InvokeResult Unit)
    (bb : InvokeResult Bool) (b : Broadcaster) :
    startTypesenseServer false bu = (.ok (), false) ∧
    stopTypesenseServer false bs = (.ok (), false) ∧
    isTypesenseServerRunning false bb = (.ok false, false) ∧
    onTypesenseStatusUpdate false b = (b, none) ∧
    runUnsubscribe b none = b :=
  ⟨rfl, rfl, rfl, rfl, rfl⟩

end Junkdrawer
